import Mathlib

/-!
Verification of the post-listing and post-creation handlers of
`src/app/api/posts/route.ts` (the `memora` repository).

The file shallowly embeds the two HTTP handlers:

* `Memora.Listing.GET` models the `GET /api/posts` handler (lines 176-285 of
  `route.ts`): query-parameter parsing, the mutable `where` object built from
  the explicit filters and the session, the Prisma `findMany`/`count` pair,
  and the pagination metadata.
* `Memora.Creation.POST` models the `POST /api/posts` handler (lines 16-174):
  session check, payload validation, user lookup, post creation, the per-file
  move/record loop with its per-file `catch`, cover-image resolution, the
  final update, and the compensating delete of the surrounding `catch`.

External collaborators are embedded as follows.  The database is explicit
state (lists of rows) threaded through the handlers; Prisma row operations are
total state transformations.  The blob-storage helper (`@/lib/aws-s3`, not part
of the sources) is modelled from the specification: a deterministic final-key
function and a URL constructor, with an oracle (`Env.moveOk`) deciding which
`moveFileFromTemp` calls succeed.  A second oracle (`Env.updateThrows`) decides
whether the cover-image update step throws, which is the escape point of the
surrounding file-processing block.  JavaScript string falsiness (`!s` for the
empty string, `a || b`) is translated explicitly; numeric query parameters are
modelled as parsed natural numbers (`Option Nat`, `none` = parameter absent);
non-numeric (`NaN`) and negative parameter values are outside the model, as is
the float rounding of `Math.ceil` (exact rational arithmetic is used instead,
which agrees with the float computation for page sizes ≤ 50 and realistic row
counts).
-/

namespace Memora

namespace Listing

/-- The `Visibility` Prisma enum (PUBLIC, FOLLOWERS and the private tier). -/
inductive Visibility where
  | PUBLIC
  | FOLLOWERS
  | PRIVATE
deriving DecidableEq, Repr

/-- A user row (the fields this handler touches). -/
structure User where
  id : String
  email : String
deriving DecidableEq, Repr

/-- A follow edge: `followerId` follows `followingId`.  Modelled from the spec:
the Prisma schema is not part of the sources; the spec describes the follow
relationship as a directed edge follower→followee used to test "does the viewer
follow this post's owner". -/
structure Follow where
  followerId : String
  followingId : String
deriving DecidableEq, Repr

/-- A post row (the fields the `GET` handler filters on). -/
structure Post where
  id : String
  userId : String
  visibility : Visibility
  category : String
  isDraft : Bool
  createdAt : Nat
deriving DecidableEq, Repr

/-- The relational state visible to the listing handler. -/
structure DB where
  users : List User
  posts : List Post
  follows : List Follow
deriving Repr

/-- The parsed query parameters of a listing request (`none` = absent). -/
structure ListParams where
  page : Option Nat := none
  limit : Option Nat := none
  visibility : Option Visibility := none
  category : Option String := none
  userId : Option String := none
deriving Repr

/-- The `where` object of `route.ts` lines 188-239, after all mutations. -/
structure WhereClause where
  isDraft : Bool
  visibility : Option Visibility
  category : Option String
  userId : Option String
  /-- Holds `some callerId` when the `where.OR` disjunction of lines 219-236 was
  installed for that caller; `none` when no `OR` clause is present. -/
  orCaller : Option String
deriving DecidableEq, Repr

/-- The test `user.followers.some (followerId = callerId)` of lines 226-232: the post
owner has a follower edge whose follower is the caller. -/
def callerFollows (db : DB) (callerId ownerId : String) : Bool :=
  db.follows.any (fun f => f.followerId == callerId && f.followingId == ownerId)

/-- Lines 188-239 of `route.ts`: build the `where` clause.  The explicit
`visibility`/`category`/`userId` filters are copied in first; an
unauthenticated session then overwrites `where.visibility` with `PUBLIC`;
an authenticated session with no `userId` filter looks the caller up by email
and, when found, installs the `where.OR` disjunction (leaving every previously
set field in place). -/
def buildWhere (db : DB) (session : Option String) (p : ListParams) : WhereClause :=
  let w : WhereClause :=
    { isDraft := false
      visibility := p.visibility
      category := p.category
      userId := p.userId
      orCaller := none }
  match session with
  | none => { w with visibility := some Visibility.PUBLIC }
  | some email =>
    if email = "" then { w with visibility := some Visibility.PUBLIC }
    else if p.userId.isSome then w
    else
      match db.users.find? (fun u => u.email == email) with
      | some u => { w with orCaller := some u.id }
      | none => w

/-- The `visibility` conjunct of the `where` clause. -/
def visibilityOk (w : WhereClause) (q : Post) : Bool :=
  match w.visibility with
  | none => true
  | some v => q.visibility == v

/-- The `category` conjunct of the `where` clause. -/
def categoryOkW (w : WhereClause) (q : Post) : Bool :=
  match w.category with
  | none => true
  | some c => q.category == c

/-- The `userId` conjunct of the `where` clause. -/
def userIdOk (w : WhereClause) (q : Post) : Bool :=
  match w.userId with
  | none => true
  | some u => q.userId == u

/-- The `OR` disjunct of lines 219-236: public, or the caller's own post, or a
followers-only post whose owner the caller follows. -/
def orOk (db : DB) (w : WhereClause) (q : Post) : Bool :=
  match w.orCaller with
  | none => true
  | some caller =>
    (q.visibility == Visibility.PUBLIC) ||
    (q.userId == caller) ||
    (q.visibility == Visibility.FOLLOWERS && callerFollows db caller q.userId)

/-- Whether a post row satisfies the `where` clause (the Prisma filter
semantics of the object built by `buildWhere`: a conjunction of the present
fields). -/
def matchesWhere (db : DB) (w : WhereClause) (q : Post) : Bool :=
  (q.isDraft == w.isDraft) && visibilityOk w q && categoryOkW w q &&
    userIdOk w q && orOk db w q

/-- The rows matching the `where` clause (the result set that `findMany`
paginates and `count` counts). -/
def matchingPosts (db : DB) (w : WhereClause) : List Post :=
  db.posts.filter (matchesWhere db w)

/-- Insert a post into a list sorted newest-first by `createdAt`. -/
def insertByNewest (q : Post) : List Post → List Post
  | [] => [q]
  | r :: rs => if r.createdAt ≤ q.createdAt then q :: r :: rs else r :: insertByNewest q rs

/-- The sort `orderBy createdAt desc` of lines 259-261. -/
def sortByNewest (ps : List Post) : List Post :=
  ps.foldr insertByNewest []

/-- The `Math.ceil` function on an exact rational. -/
def mathCeil (q : ℚ) : Int := ⌈q⌉

/-- The `pagination` object of lines 270-275. -/
structure Pagination where
  page : Nat
  limit : Nat
  total : Nat
  pages : Int
deriving DecidableEq, Repr

/-- The 200 response body of the listing handler. -/
structure ListResponse where
  posts : List Post
  pagination : Pagination
deriving Repr

/-- Lines 176-277 of `route.ts`: parse paging parameters (`page` defaults to 1,
`limit` defaults to 10 and is clamped by `Math.min(·, 50)`), build the `where`
clause, fetch the page `skip = (page-1)*limit, take = limit` of the matching
rows sorted newest-first, count the matching rows, and assemble the response
with `pages = Math.ceil(total/limit)`. -/
def GET (db : DB) (session : Option String) (p : ListParams) : ListResponse :=
  let page := p.page.getD 1
  let limit := min (p.limit.getD 10) 50
  let skip := (page - 1) * limit
  let w := buildWhere db session p
  let matching := matchingPosts db w
  let total := matching.length
  { posts := ((sortByNewest matching).drop skip).take limit
    pagination :=
      { page := page
        limit := limit
        total := total
        pages := mathCeil ((total : ℚ) / (limit : ℚ)) } }

end Listing

namespace Creation

/-- A file entry of the creation payload (`FileData`, lines 9-14). -/
structure FileData where
  s3Key : String
  description : String
  fileName : String
  fileType : String
deriving DecidableEq, Repr

/-- The parsed JSON body of a creation request (lines 27-36).  JavaScript
falsiness of the string fields is modelled by the empty string (`""` = absent
or empty); `files` is `none` when the field is absent and `some l` when it is
an array. -/
structure CreateRequest where
  title : String
  description : String
  category : String
  tags : List String
  visibility : String
  isDraft : Bool
  coverImage : String
  files : Option (List FileData)
deriving DecidableEq, Repr

/-- A user row (the fields the creation handler touches). -/
structure User where
  id : String
  email : String
deriving DecidableEq, Repr

/-- A post row as the creation handler writes it (lines 59-70 and 125-129). -/
structure PostRow where
  id : Nat
  title : String
  description : String
  category : String
  tags : List String
  visibility : String
  isDraft : Bool
  userId : String
  coverImage : Option String
deriving DecidableEq, Repr

/-- An image row (lines 91-97). -/
structure ImageRow where
  url : String
  description : Option String
  postId : Nat
deriving DecidableEq, Repr

/-- The relational state visible to the creation handler.  `nextPostId` is the
identifier the next `post.create` will assign. -/
structure DB where
  users : List User
  posts : List PostRow
  images : List ImageRow
  nextPostId : Nat
deriving Repr

/-- The storage configuration (`AWS_S3_BUCKET_NAME`, `AWS_REGION`). -/
structure Config where
  bucket : String
  region : String
deriving Repr

/-- The failure oracle of one request: `moveOk i` tells whether the
`moveFileFromTemp` call for the i-th file succeeds, and `updateThrows` whether
the `post.update` step (the escape point of the surrounding file-processing
block, line 125) throws. -/
structure Env where
  moveOk : Nat → Bool
  updateThrows : Bool

/-- Modelled from the spec: the repository's `generateFinalKey` helper lives in
`@/lib/aws-s3`, which is not part of the sources.  The spec states it computes
a deterministic final storage key from (userId, postId, fileName, visibility). -/
def generateFinalKey (userId : String) (postId : Nat) (fileName visibility : String) : String :=
  "users/" ++ userId ++ "/posts/" ++ toString postId ++ "/" ++ visibility ++ "/" ++ fileName

/-- Line 120 of `route.ts`: the final URL of a storage key, built from the
configured bucket name and region.  Modelled from the spec for the URL that
`moveFileFromTemp` (not part of the sources) returns: the spec says the move
relocates the object to the final key and the Image row references the
resulting URL, which line 120 recomputes with exactly this shape. -/
def finalUrlOf (cfg : Config) (key : String) : String :=
  "https://" ++ cfg.bucket ++ ".s3." ++ cfg.region ++ ".amazonaws.com/" ++ key

/-- The expression `s.split('/').pop() || ''` of line 110: the last
`/`-separated segment,
i.e. the characters after the last `/` (the whole string when it has no `/`,
the empty string when it ends in `/`). -/
def lastSegment (s : String) : String :=
  String.mk ((s.toList.reverse.takeWhile (fun c => c != '/')).reverse)

/-- JavaScript `hay.includes(needle)`: substring test. -/
def strIncludes (hay needle : String) : Bool :=
  hay.toList.tails.any (fun t => needle.toList.isPrefixOf t)

/-- The Image row created for a successfully moved file (lines 91-97);
`file.description || null` maps the empty string to `null`. -/
def fileImage (cfg : Config) (uid : String) (pid : Nat) (vis : String) (f : FileData) : ImageRow :=
  { url := finalUrlOf cfg (generateFinalKey uid pid f.fileName vis)
    description := if f.description = "" then none else some f.description
    postId := pid }

/-- The per-file loop of lines 76-103, started at file index `i`: for each file
whose move succeeds, push the returned final URL onto `movedFiles` and create
an Image row; a per-file failure is caught and the loop continues.  Returns
(`movedFiles`, created Image rows). -/
def processFiles (cfg : Config) (env : Env) (uid : String) (pid : Nat) (vis : String) :
    Nat → List FileData → List String × List ImageRow
  | _, [] => ([], [])
  | i, f :: fs =>
    let rest := processFiles cfg env uid pid vis (i + 1) fs
    if env.moveOk i then
      let url := finalUrlOf cfg (generateFinalKey uid pid f.fileName vis)
      (url :: rest.1, fileImage cfg uid pid vis f :: rest.2)
    else rest

/-- The files (from index `i` on) whose move succeeds, in request order. -/
def movedList (env : Env) : Nat → List FileData → List FileData
  | _, [] => []
  | i, f :: fs =>
    if env.moveOk i then f :: movedList env (i + 1) fs else movedList env (i + 1) fs

/-- How many of the moves (from index `i` on) succeed. -/
def movedCount (env : Env) : Nat → List FileData → Nat
  | _, [] => 0
  | i, _ :: fs => (if env.moveOk i then 1 else 0) + movedCount env (i + 1) fs

/-- Line 109-111: `files.find(f => coverImage.includes(f.s3Key.split('/').pop() || ''))`. -/
def findCoverFile (hint : String) (files : List FileData) : Option FileData :=
  files.find? (fun f => strIncludes hint (lastSegment f.s3Key))

/-- Lines 106-128: resolve the final cover image.  When the hint is truthy and
matches a file, `finalCoverImage` is that file's recomputed final URL;
the update then stores `finalCoverImage || movedFiles[0] || null` with
JavaScript string falsiness. -/
def resolveCoverImage (cfg : Config) (uid : String) (pid : Nat) (vis : String)
    (hint : String) (files : List FileData) (movedFiles : List String) : Option String :=
  let finalCoverImage :=
    if hint ≠ "" then
      match findCoverFile hint files with
      | some f => finalUrlOf cfg (generateFinalKey uid pid f.fileName vis)
      | none => ""
    else ""
  if finalCoverImage ≠ "" then some finalCoverImage
  else
    match movedFiles.head? with
    | some u => if u ≠ "" then some u else none
    | none => none

/-- The cover-image resolution rule as the specification states it: when an
explicit cover-image hint is supplied and it matches a file of the original
file list (the filename segment of the file's temporary key occurring in the
hint), the cover image is that file's deterministically recomputed final URL;
otherwise it is the first successfully moved file's URL, or null when no file
was moved. -/
def coverImageSpec (cfg : Config) (uid : String) (pid : Nat) (vis : String)
    (hint : String) (files : List FileData) (movedFiles : List String) : Option String :=
  if hint ≠ "" ∧ (findCoverFile hint files).isSome then
    (findCoverFile hint files).map (fun f => finalUrlOf cfg (generateFinalKey uid pid f.fileName vis))
  else movedFiles.head?

/-- The outcome of a creation request, with the HTTP status it is sent as. -/
inductive CreateResult where
  | unauthorized
  | badRequest
  | notFound
  | serverError
  | ok (post : PostRow) (images : List ImageRow)
deriving DecidableEq, Repr

/-- The HTTP status of a creation outcome. -/
def CreateResult.status : CreateResult → Nat
  | .unauthorized => 401
  | .badRequest => 400
  | .notFound => 404
  | .serverError => 500
  | .ok _ _ => 200

/-- Lines 58-165, after the user has been resolved: create the post row with an
empty cover image, run the per-file loop, then either (when the surrounding
block throws at the update step) delete the created post and answer 500, or
resolve the cover image, update the post and answer 200. -/
def createWithUser (cfg : Config) (env : Env) (db : DB) (req : CreateRequest) (user : User) :
    CreateResult × DB :=
  let files := req.files.getD []
  let post : PostRow :=
    { id := db.nextPostId
      title := req.title
      description := req.description
      category := req.category
      tags := req.tags
      visibility := req.visibility
      isDraft := req.isDraft
      userId := user.id
      coverImage := some "" }
  let db1 : DB := { db with posts := db.posts ++ [post], nextPostId := db.nextPostId + 1 }
  let pr := processFiles cfg env user.id post.id req.visibility 0 files
  let db2 : DB := { db1 with images := db1.images ++ pr.2 }
  if env.updateThrows then
    (CreateResult.serverError,
      { db2 with posts := db2.posts.filter (fun q => q.id != post.id) })
  else
    let cover := resolveCoverImage cfg user.id post.id req.visibility req.coverImage files pr.1
    let updated : PostRow := { post with coverImage := cover }
    (CreateResult.ok updated pr.2,
      { db2 with posts := db2.posts.map (fun q => if q.id = post.id then updated else q) })

/-- Lines 16-174 of `route.ts`: the creation handler.  Session check (401),
required-field validation (400), user lookup (404), then the post-creating
flow. -/
def POST (cfg : Config) (env : Env) (db : DB) (session : Option String)
    (req : CreateRequest) : CreateResult × DB :=
  match session with
  | none => (CreateResult.unauthorized, db)
  | some email =>
    if email = "" then (CreateResult.unauthorized, db)
    else if req.title = "" ∨ req.description = "" ∨ req.category = "" ∨
        req.files = none ∨ req.files = some [] then
      (CreateResult.badRequest, db)
    else
      match db.users.find? (fun u => u.email == email) with
      | none => (CreateResult.notFound, db)
      | some user => createWithUser cfg env db req user

end Creation

namespace Listing

/-- Example user: the authenticated caller of several concrete runs. -/
def aliceUser : User := { id := "u-alice", email := "alice@example.com" }

/-- Example user: an unrelated post owner. -/
def bobUser : User := { id := "u-bob", email := "bob@example.com" }

/-- Example user: a post owner that alice follows. -/
def carolUser : User := { id := "u-carol", email := "carol@example.com" }

/-- A non-draft PUBLIC post owned by bob. -/
def pubBob : Post :=
  { id := "p-pub-b", userId := "u-bob", visibility := Visibility.PUBLIC,
    category := "ART", isDraft := false, createdAt := 5 }

/-- A non-draft PRIVATE post owned by alice. -/
def privAlice : Post :=
  { id := "p-priv-a", userId := "u-alice", visibility := Visibility.PRIVATE,
    category := "ART", isDraft := false, createdAt := 4 }

/-- A non-draft PRIVATE post owned by bob. -/
def privBob : Post :=
  { id := "p-priv-b", userId := "u-bob", visibility := Visibility.PRIVATE,
    category := "ART", isDraft := false, createdAt := 3 }

/-- A non-draft FOLLOWERS post owned by carol (whom alice follows). -/
def folCarol : Post :=
  { id := "p-fol-c", userId := "u-carol", visibility := Visibility.FOLLOWERS,
    category := "ART", isDraft := false, createdAt := 2 }

/-- A non-draft FOLLOWERS post owned by bob (whom alice does not follow). -/
def folBob : Post :=
  { id := "p-fol-b", userId := "u-bob", visibility := Visibility.FOLLOWERS,
    category := "ART", isDraft := false, createdAt := 1 }

/-- A draft PUBLIC post owned by bob. -/
def draftBob : Post :=
  { id := "p-draft-b", userId := "u-bob", visibility := Visibility.PUBLIC,
    category := "ART", isDraft := true, createdAt := 6 }

/-- The example database: three users, six posts, alice follows carol. -/
def exampleDB : DB :=
  { users := [aliceUser, bobUser, carolUser]
    posts := [pubBob, privAlice, privBob, folCarol, folBob, draftBob]
    follows := [{ followerId := "u-alice", followingId := "u-carol" }] }

/-- A database holding 101 matching rows, for the pagination run. -/
def exampleDB101 : DB :=
  { users := [], posts := List.replicate 101 pubBob, follows := [] }

/-- Query parameters requesting `limit=80` (to be clamped to 50). -/
def paginationParams : ListParams := { limit := some 80 }

/-- Query parameters requesting an explicit `visibility=PRIVATE` filter. -/
def privParams : ListParams := { visibility := some Visibility.PRIVATE }

/-- Query parameters requesting an explicit `userId=u-alice` filter. -/
def uidParams : ListParams := { userId := some "u-alice" }

end Listing

namespace Creation

/-- Example storage configuration. -/
def cfgEx : Config := { bucket := "memora-bucket", region := "eu-west-1" }

/-- Example authenticated caller of the creation runs. -/
def aliceC : User := { id := "u-alice", email := "alice@example.com" }

/-- Example initial database: one user, no posts or images, next post id 7. -/
def dbEx : DB := { users := [aliceC], posts := [], images := [], nextPostId := 7 }

/-- First uploaded file. -/
def fileA : FileData :=
  { s3Key := "temp/a.png", description := "first", fileName := "a.png",
    fileType := "image/png" }

/-- Second uploaded file (empty description). -/
def fileB : FileData :=
  { s3Key := "temp/b.png", description := "", fileName := "b.png",
    fileType := "image/png" }

/-- A valid creation payload with two files and no cover-image hint. -/
def reqEx : CreateRequest :=
  { title := "t", description := "d", category := "ART", tags := [],
    visibility := "PUBLIC", isDraft := false, coverImage := "",
    files := some [fileA, fileB] }

/-- The same payload with a cover-image hint that mentions `b.png`. -/
def reqCoverEx : CreateRequest := { reqEx with coverImage := "thumb-b.png" }

/-- The same payload with the required title missing. -/
def reqMissingEx : CreateRequest := { reqEx with title := "" }

/-- Environment where every move succeeds and the update does not throw. -/
def envOk : Env := { moveOk := fun _ => true, updateThrows := false }

/-- Environment where the file-processing block throws at the update step. -/
def envThrow : Env := { moveOk := fun _ => true, updateThrows := true }

/-- Environment where exactly the second file's move fails. -/
def envFailSnd : Env := { moveOk := fun i => i != 1, updateThrows := false }

end Creation

end Memora

namespace Memora.Listing

/-- Membership is preserved by sorted insertion. -/
theorem mem_insertByNewest (a q : Post) (l : List Post) :
    a ∈ insertByNewest q l ↔ a = q ∨ a ∈ l := by
  induction l with
  | nil => simp [insertByNewest]
  | cons r rs ih =>
    by_cases h : r.createdAt ≤ q.createdAt
    · simp [insertByNewest, h]
    · simp [insertByNewest, h, ih]
      tauto

/-- Sorting does not change membership. -/
theorem mem_sortByNewest (a : Post) (l : List Post) :
    a ∈ sortByNewest l ↔ a ∈ l := by
  induction l with
  | nil => simp [sortByNewest]
  | cons r rs ih =>
    simp only [sortByNewest, List.foldr_cons] at ih ⊢
    rw [mem_insertByNewest]
    simp [ih]

/-- Every post of the returned page satisfies the `where` clause. -/
theorem mem_GET_posts_matches (db : DB) (session : Option String) (p : ListParams)
    (q : Post) (hq : q ∈ (GET db session p).posts) :
    q ∈ db.posts ∧ matchesWhere db (buildWhere db session p) q = true := by
  have h1 : q ∈ sortByNewest (matchingPosts db (buildWhere db session p)) :=
    List.drop_subset _ _ (List.take_subset _ _ hq)
  rw [mem_sortByNewest] at h1
  exact ⟨List.mem_of_mem_filter h1, List.of_mem_filter h1⟩

/-- The `where` clause is the conjunction of its five conjuncts. -/
theorem matchesWhere_spec (db : DB) (w : WhereClause) (q : Post) :
    matchesWhere db w q = true ↔
      (q.isDraft = w.isDraft ∧ visibilityOk w q = true ∧ categoryOkW w q = true ∧
        userIdOk w q = true ∧ orOk db w q = true) := by
  simp [matchesWhere, Bool.and_eq_true, and_assoc]

/-- The `where` clause built for an authenticated caller that was resolved to
the user row `u`, with no `userId` filter: the `OR` disjunction is installed
and every explicit filter stays in place. -/
theorem buildWhere_auth_found (db : DB) (email : String) (p : ListParams) (u : User)
    (he : email ≠ "") (hnouser : p.userId = none)
    (hu : db.users.find? (fun v => v.email == email) = some u) :
    buildWhere db (some email) p =
      { isDraft := false, visibility := p.visibility, category := p.category,
        userId := none, orCaller := some u.id } := by
  simp [buildWhere, he, hnouser, hu]

/-- The `where` clause built for an authenticated caller with an explicit
`userId` filter: no `OR` disjunction is installed. -/
theorem buildWhere_auth_uid (db : DB) (email : String) (p : ListParams) (uid : String)
    (he : email ≠ "") (huid : p.userId = some uid) :
    buildWhere db (some email) p =
      { isDraft := false, visibility := p.visibility, category := p.category,
        userId := some uid, orCaller := none } := by
  simp [buildWhere, he, huid]

/-- The `where` clause built for an authenticated session whose email matches
no user row, with no `userId` filter: nothing is added to the explicit
filters. -/
theorem buildWhere_auth_ghost (db : DB) (email : String) (p : ListParams)
    (he : email ≠ "") (hnouser : p.userId = none)
    (hg : ∀ u ∈ db.users, u.email ≠ email) :
    buildWhere db (some email) p =
      { isDraft := false, visibility := p.visibility, category := p.category,
        userId := none, orCaller := none } := by
  have hfind : db.users.find? (fun v => v.email == email) = none := by
    rw [List.find?_eq_none]
    intro u hu
    simp [hg u hu]
  simp [buildWhere, he, hnouser, hfind]

/-- Applying `Math.ceil` to an exact nonnegative rational division agrees with the
rounding-up natural division. -/
theorem mathCeil_div_eq (t l : Nat) (hl : 0 < l) :
    mathCeil ((t : ℚ) / (l : ℚ)) = (((t + l - 1) / l : Nat) : Int) := by
  have hl' : (0 : ℚ) < (l : ℚ) := by exact_mod_cast hl
  obtain ⟨q, hq⟩ : ∃ q, (t + l - 1) / l = q := ⟨_, rfl⟩
  have hle : q * l ≤ t + l - 1 := by rw [← hq]; exact Nat.div_mul_le_self _ _
  have hdm := Nat.div_add_mod (t + l - 1) l
  have hmod : (t + l - 1) % l < l := Nat.mod_lt _ hl
  have hlt : t + l - 1 < q * l + l := by
    calc t + l - 1 = l * ((t + l - 1) / l) + (t + l - 1) % l := hdm.symm
      _ < l * ((t + l - 1) / l) + l := Nat.add_lt_add_left hmod _
      _ = q * l + l := by rw [hq, Nat.mul_comm]
  obtain ⟨m, hm⟩ : ∃ m, q * l = m := ⟨_, rfl⟩
  have h1 : t ≤ q * l := by rw [hm]; rw [hm] at hle hlt; omega
  have h2 : q * l < t + l := by rw [hm]; rw [hm] at hle hlt; omega
  rw [hq, mathCeil, Int.ceil_eq_iff]
  constructor
  · rw [lt_div_iff₀ hl']
    have hx : ((q * l : Nat) : ℚ) < (t : ℚ) + (l : ℚ) := by exact_mod_cast h2
    push_cast at hx ⊢
    linarith
  · rw [div_le_iff₀ hl']
    have hx : (t : ℚ) ≤ ((q * l : Nat) : ℚ) := by exact_mod_cast h1
    push_cast at hx ⊢
    linarith

/-- C2 (confirmed): for every listing request with no authenticated session the
query's visibility constraint is forced to PUBLIC regardless of any visibility
query parameter, and the returned page never contains a post whose visibility
is not PUBLIC. -/
theorem unauthenticated_listing_public (db : DB) (p : ListParams) :
    (buildWhere db none p).visibility = some Visibility.PUBLIC ∧
    ∀ q ∈ (GET db none p).posts, q.visibility = Visibility.PUBLIC := by
  refine ⟨rfl, fun q hq => ?_⟩
  have h := (mem_GET_posts_matches db none p q hq).2
  rw [matchesWhere_spec] at h
  have hv := h.2.1
  have hw : (buildWhere db none p).visibility = some Visibility.PUBLIC := rfl
  simp [visibilityOk, hw] at hv
  exact hv

/-- Concrete unauthenticated run: bob's PUBLIC post is returned even though the
request asked for `visibility=PRIVATE`, and it is PUBLIC. -/
theorem unauthenticated_listing_public_wit :
    pubBob ∈ (GET exampleDB none privParams).posts ∧
    pubBob.visibility = Visibility.PUBLIC :=
  ⟨by decide,
    (unauthenticated_listing_public exampleDB privParams).2 pubBob (by decide)⟩

/-- C6 (confirmed): the effective page size of every listing request is the
requested limit clamped by `Math.min(·, 50)` (10 when absent), the page number
defaults to 1, and the reported `pages` equals ceil(total/limit), stated as
the rounding-up natural division, whenever the effective limit is positive. -/
theorem listing_pagination_clamp (db : DB) (session : Option String) (p : ListParams)
    (hl : 0 < min (p.limit.getD 10) 50) :
    (GET db session p).pagination.page = p.page.getD 1 ∧
    (GET db session p).pagination.limit = min (p.limit.getD 10) 50 ∧
    (GET db session p).pagination.limit ≤ 50 ∧
    (GET db session p).pagination.pages =
      (((GET db session p).pagination.total + (GET db session p).pagination.limit - 1)
          / (GET db session p).pagination.limit : Nat) := by
  refine ⟨rfl, rfl, min_le_right _ _, ?_⟩
  exact mathCeil_div_eq (matchingPosts db (buildWhere db session p)).length
    (min (p.limit.getD 10) 50) hl

/-- Concrete pagination run: `limit=80` is clamped to 50 over 101 matching
rows and the reported page count is 3 = ceil(101/50). -/
theorem listing_pagination_clamp_wit :
    0 < min (paginationParams.limit.getD 10) 50 ∧
    (GET exampleDB101 none paginationParams).pagination.page = 1 ∧
    (GET exampleDB101 none paginationParams).pagination.limit = 50 ∧
    (GET exampleDB101 none paginationParams).pagination.total = 101 ∧
    (GET exampleDB101 none paginationParams).pagination.pages = 3 := by
  have h := listing_pagination_clamp exampleDB101 none paginationParams (by decide)
  have htot : (GET exampleDB101 none paginationParams).pagination.total = 101 := by decide
  have hlim : (GET exampleDB101 none paginationParams).pagination.limit = 50 := by decide
  refine ⟨by decide, by decide, hlim, htot, ?_⟩
  rw [h.2.2.2, htot, hlim]
  norm_num

/-- C1 counterexample: an authenticated caller (alice, resolved in the user
table, no `userId` filter) sending an explicit `visibility=PRIVATE` parameter
does not receive the non-draft PUBLIC post `pubBob`: the explicit visibility
filter stays conjoined with the authorization disjunction instead of being
replaced by it. -/
theorem auth_listing_replacement_cex :
    (buildWhere exampleDB (some "alice@example.com") privParams).orCaller = some "u-alice" ∧
    (buildWhere exampleDB (some "alice@example.com") privParams).visibility
      = some Visibility.PRIVATE ∧
    privParams.userId = none ∧
    pubBob ∈ exampleDB.posts ∧ pubBob.isDraft = false ∧
    pubBob.visibility = Visibility.PUBLIC ∧
    pubBob ∉ matchingPosts exampleDB
      (buildWhere exampleDB (some "alice@example.com") privParams) ∧
    pubBob ∉ (GET exampleDB (some "alice@example.com") privParams).posts := by
  decide

/-- C1 (amended): for an authenticated caller resolved to user `u` with no
explicit `userId` filter, the disjunction (PUBLIC ∨ own ∨ FOLLOWERS-and-
followed) is conjoined to the explicit filters rather than replacing them:
the explicit visibility filter stays in place; a PRIVATE post of another user
never appears in the returned page; and when no explicit visibility parameter
was supplied the matching rows are exactly the non-draft rows passing the
category filter that are PUBLIC, the caller's own, or FOLLOWERS rows whose
owner the caller follows. -/
theorem auth_listing_disjunction (db : DB) (email : String) (p : ListParams) (u : User)
    (he : email ≠ "") (hnouser : p.userId = none)
    (hu : db.users.find? (fun v => v.email == email) = some u) :
    (buildWhere db (some email) p).orCaller = some u.id ∧
    (buildWhere db (some email) p).visibility = p.visibility ∧
    (∀ q ∈ (GET db (some email) p).posts,
        q.visibility = Visibility.PRIVATE → q.userId = u.id) ∧
    (p.visibility = none →
      ∀ q ∈ db.posts,
        (q ∈ matchingPosts db (buildWhere db (some email) p) ↔
          (q.isDraft = false ∧ categoryOkW (buildWhere db (some email) p) q = true ∧
            (q.visibility = Visibility.PUBLIC ∨ q.userId = u.id ∨
              (q.visibility = Visibility.FOLLOWERS ∧
                callerFollows db u.id q.userId = true))))) := by
  have hw := buildWhere_auth_found db email p u he hnouser hu
  refine ⟨by rw [hw], by rw [hw], ?_, ?_⟩
  · intro q hq hpriv
    have h := (mem_GET_posts_matches db (some email) p q hq).2
    rw [matchesWhere_spec] at h
    have ho := h.2.2.2.2
    rw [hw] at ho
    simpa [orOk, hpriv] using ho
  · intro hv q hq
    rw [hw, matchingPosts, List.mem_filter]
    simp only [hq, true_and]
    rw [matchesWhere_spec]
    simp only [visibilityOk, userIdOk, orOk, hv, Bool.or_eq_true, Bool.and_eq_true,
      beq_iff_eq]
    tauto

/-- Concrete authenticated feed: alice's listing with no filters contains
carol's FOLLOWERS-only post, since alice follows carol. -/
theorem auth_listing_disjunction_wit :
    ({} : ListParams).userId = none ∧
    exampleDB.users.find? (fun v => v.email == "alice@example.com") = some aliceUser ∧
    folCarol ∈ matchingPosts exampleDB
      (buildWhere exampleDB (some "alice@example.com") ({} : ListParams)) := by
  have h := auth_listing_disjunction exampleDB "alice@example.com" {} aliceUser
    (by decide) rfl (by decide)
  refine ⟨rfl, by decide, ?_⟩
  exact (h.2.2.2 rfl folCarol (by decide)).mpr
    ⟨by decide, by decide, Or.inr (Or.inr ⟨by decide, by decide⟩)⟩

/-- C9 (confirmed): an authenticated listing request with an explicit `userId`
filter installs no authorization disjunction: the matching rows are exactly
that user's non-draft rows passing the explicit visibility and category
filters — every visibility tier included — whatever the caller's identity or
follow edges. -/
theorem userid_listing_no_disjunction (db : DB) (email : String) (p : ListParams)
    (uid : String) (he : email ≠ "") (huid : p.userId = some uid) :
    (buildWhere db (some email) p).orCaller = none ∧
    (∀ q : Post, q ∈ matchingPosts db (buildWhere db (some email) p) ↔
      (q ∈ db.posts ∧ q.isDraft = false ∧
        visibilityOk (buildWhere db (some email) p) q = true ∧
        categoryOkW (buildWhere db (some email) p) q = true ∧ q.userId = uid)) := by
  have hw := buildWhere_auth_uid db email p uid he huid
  refine ⟨by rw [hw], fun q => ?_⟩
  rw [hw, matchingPosts, List.mem_filter, matchesWhere_spec]
  simp only [userIdOk, orOk, and_true, beq_iff_eq]

/-- Concrete filtered listing: bob (who neither owns nor follows alice)
requests `userId=u-alice` and alice's PRIVATE post is part of the matching
rows. -/
theorem userid_listing_no_disjunction_wit :
    uidParams.userId = some "u-alice" ∧
    (buildWhere exampleDB (some "bob@example.com") uidParams).orCaller = none ∧
    privAlice ∈ matchingPosts exampleDB
      (buildWhere exampleDB (some "bob@example.com") uidParams) := by
  have h := userid_listing_no_disjunction exampleDB "bob@example.com" uidParams "u-alice"
    (by decide) rfl
  exact ⟨rfl, h.1, (h.2 privAlice).mpr ⟨by decide, by decide, by decide, by decide, rfl⟩⟩

/-- C10 (confirmed): an authenticated session whose email matches no user row,
with no `userId` filter, adds no visibility constraint at all: the `where`
clause consists of exactly the explicit filters, and when no explicit
visibility parameter was supplied every non-draft row passing the category
filter — of any visibility tier and any owner — is among the matching rows. -/
theorem ghost_session_listing_unfiltered (db : DB) (email : String) (p : ListParams)
    (he : email ≠ "") (hg : ∀ u ∈ db.users, u.email ≠ email)
    (hnouser : p.userId = none) :
    buildWhere db (some email) p =
      { isDraft := false, visibility := p.visibility, category := p.category,
        userId := none, orCaller := none } ∧
    (p.visibility = none →
      ∀ q ∈ db.posts, q.isDraft = false →
        categoryOkW (buildWhere db (some email) p) q = true →
        q ∈ matchingPosts db (buildWhere db (some email) p)) := by
  have hw := buildWhere_auth_ghost db email p he hnouser hg
  refine ⟨hw, fun hv q hq hdraft hcat => ?_⟩
  rw [hw] at hcat ⊢
  rw [matchingPosts, List.mem_filter]
  refine ⟨hq, ?_⟩
  rw [matchesWhere_spec]
  exact ⟨hdraft, by simp [visibilityOk, hv], hcat, by simp [userIdOk], by simp [orOk]⟩

/-- Concrete ghost-session run: a session email matching no user row lists
bob's PRIVATE post among the matching rows. -/
theorem ghost_session_listing_unfiltered_wit :
    (∀ u ∈ exampleDB.users, u.email ≠ "ghost@example.com") ∧
    privBob ∈ matchingPosts exampleDB
      (buildWhere exampleDB (some "ghost@example.com") ({} : ListParams)) := by
  have h := ghost_session_listing_unfiltered exampleDB "ghost@example.com" {}
    (by decide) (by decide) rfl
  exact ⟨by decide, h.2 rfl privBob (by decide) (by decide) (by decide)⟩

end Memora.Listing

namespace Memora.Creation

/-- The per-file loop returns the moved files' URLs and their Image rows, in
request order. -/
theorem processFiles_eq (cfg : Config) (env : Env) (uid : String) (pid : Nat)
    (vis : String) (fs : List FileData) : ∀ i,
    processFiles cfg env uid pid vis i fs =
      ((movedList env i fs).map
          (fun f => finalUrlOf cfg (generateFinalKey uid pid f.fileName vis)),
        (movedList env i fs).map (fileImage cfg uid pid vis)) := by
  induction fs with
  | nil => intro i; rfl
  | cons f fs ih =>
    intro i
    by_cases h : env.moveOk i = true
    · simp [processFiles, movedList, h, ih (i + 1)]
    · simp [processFiles, movedList, h, ih (i + 1)]

/-- The moved files are among the request's files. -/
theorem movedList_subset (env : Env) (fs : List FileData) : ∀ i,
    ∀ f ∈ movedList env i fs, f ∈ fs := by
  induction fs with
  | nil => intro i f hf; simp [movedList] at hf
  | cons g fs ih =>
    intro i f hf
    by_cases h : env.moveOk i = true
    · simp only [movedList, h, if_true, List.mem_cons] at hf
      rcases hf with hf | hf
      · simp [hf]
      · exact List.mem_cons_of_mem _ (ih (i + 1) f hf)
    · simp only [movedList, h, if_false] at hf
      exact List.mem_cons_of_mem _ (ih (i + 1) f hf)

/-- There are as many moved files as successful moves. -/
theorem movedList_length (env : Env) (fs : List FileData) : ∀ i,
    (movedList env i fs).length = movedCount env i fs := by
  induction fs with
  | nil => intro i; rfl
  | cons f fs ih =>
    intro i
    by_cases h : env.moveOk i = true
    · simp [movedList, movedCount, h, ih (i + 1)]
      omega
    · simp [movedList, movedCount, h, ih (i + 1)]

/-- When every move from offset `k` on succeeds, all files are moved. -/
theorem movedCount_all (env : Env) (fs : List FileData) : ∀ k,
    (∀ i, k ≤ i → i < k + fs.length → env.moveOk i = true) →
    movedCount env k fs = fs.length := by
  induction fs with
  | nil => intro k _; rfl
  | cons f fs ih =>
    intro k hall
    have hk : env.moveOk k = true := hall k (Nat.le_refl _) (by simp)
    have hrest : movedCount env (k + 1) fs = fs.length := by
      refine ih (k + 1) (fun i h1 h2 => hall i (by omega) ?_)
      simp only [List.length_cons]
      omega
    simp [movedCount, hk, hrest]
    omega

/-- When exactly one move from offset `k` on fails, one file fewer is moved. -/
theorem movedCount_one_fail (env : Env) (fs : List FileData) : ∀ k j,
    k ≤ j → j < k + fs.length → env.moveOk j = false →
    (∀ i, k ≤ i → i < k + fs.length → i ≠ j → env.moveOk i = true) →
    movedCount env k fs + 1 = fs.length := by
  induction fs with
  | nil => intro k j h1 h2 _ _; simp at h2; omega
  | cons f fs ih =>
    intro k j h1 h2 hfail hrest
    by_cases hkj : j = k
    · subst hkj
      have hr : movedCount env (j + 1) fs = fs.length := by
        refine movedCount_all env fs (j + 1) (fun i hi1 hi2 => ?_)
        refine hrest i (by omega) ?_ (by omega)
        simp only [List.length_cons]
        omega
      simp [movedCount, hfail, hr]
    · have hk : env.moveOk k = true :=
        hrest k (Nat.le_refl _) (by simp only [List.length_cons]; omega)
          (fun h => hkj h.symm)
      have hr := ih (k + 1) j (by omega)
        (by simp only [List.length_cons] at h2; omega) hfail
        (fun i hi1 hi2 hne =>
          hrest i (by omega) (by simp only [List.length_cons]; omega) hne)
      simp only [movedCount, hk, if_true, List.length_cons]
      omega

/-- After the session check, the validation and the user lookup succeed, the
handler runs the post-creating flow. -/
theorem POST_resolved (cfg : Config) (env : Env) (db : DB) (email : String)
    (req : CreateRequest) (user : User) (he : email ≠ "")
    (hval : ¬(req.title = "" ∨ req.description = "" ∨ req.category = "" ∨
      req.files = none ∨ req.files = some []))
    (hu : db.users.find? (fun u => u.email == email) = some user) :
    POST cfg env db (some email) req = createWithUser cfg env db req user := by
  simp [POST, he, hval, hu]

/-- A final-location URL is never the empty string. -/
theorem finalUrlOf_ne_empty (cfg : Config) (key : String) : finalUrlOf cfg key ≠ "" := by
  intro h
  have hlen := congrArg String.length h
  simp only [finalUrlOf, String.length_append] at hlen
  have h8 : ("https://" : String).length = 8 := rfl
  have h0 : ("" : String).length = 0 := rfl
  omega

/-- The `|| null` fallback on `movedFiles[0]` is the identity when no moved URL
is empty. -/
theorem headFallback_eq (moved : List String) (hm : ∀ u ∈ moved, u ≠ "") :
    (match moved.head? with
      | some u => if u ≠ "" then some u else none
      | none => none) = moved.head? := by
  cases moved with
  | nil => rfl
  | cons u us => simp [hm u (List.mem_cons_self u us)]

/-- When no moved URL is empty (as holds for final-location URLs), the code's
cover resolution coincides with the specification's resolution rule. -/
theorem resolveCover_eq_spec (cfg : Config) (uid : String) (pid : Nat)
    (vis hint : String) (files : List FileData) (moved : List String)
    (hm : ∀ u ∈ moved, u ≠ "") :
    resolveCoverImage cfg uid pid vis hint files moved =
      coverImageSpec cfg uid pid vis hint files moved := by
  rw [resolveCoverImage, coverImageSpec]
  by_cases hh : hint = ""
  · simp only [hh, ne_eq, not_true_eq_false, if_false, ite_false]
    simpa using headFallback_eq moved hm
  · cases hf : findCoverFile hint files with
    | some f =>
      simp [hh, hf, finalUrlOf_ne_empty]
    | none =>
      simp only [hh, hf, ne_eq, not_false_eq_true, if_true, Option.isSome_none,
        Bool.false_eq_true, and_false, if_false, not_true_eq_false]
      simpa using headFallback_eq moved hm

/-- C7 (confirmed): every authenticated creation request whose payload is
missing title, description or category, or whose file list is absent or
empty, is answered 400 and leaves the database — in particular the post
table — unchanged: validation precedes post creation. -/
theorem creation_validation_rejects (cfg : Config) (env : Env) (db : DB)
    (email : String) (req : CreateRequest) (he : email ≠ "")
    (hmiss : req.title = "" ∨ req.description = "" ∨ req.category = "" ∨
      req.files = none ∨ req.files = some []) :
    POST cfg env db (some email) req = (CreateResult.badRequest, db) ∧
    (POST cfg env db (some email) req).1.status = 400 ∧
    (POST cfg env db (some email) req).2.posts = db.posts := by
  have h : POST cfg env db (some email) req = (CreateResult.badRequest, db) := by
    simp only [POST]
    rw [if_neg he, if_pos hmiss]
  exact ⟨h, by rw [h]; rfl, by rw [h]⟩

/-- Concrete rejected creation: a payload with the title missing is answered
400 and the database is unchanged. -/
theorem creation_validation_rejects_wit :
    ("alice@example.com" : String) ≠ "" ∧ reqMissingEx.title = "" ∧
    POST cfgEx envOk dbEx (some "alice@example.com") reqMissingEx
      = (CreateResult.badRequest, dbEx) := by
  have h := creation_validation_rejects cfgEx envOk dbEx "alice@example.com"
    reqMissingEx (by decide) (Or.inl rfl)
  exact ⟨by decide, rfl, h.1⟩

/-- C3 (confirmed): when the file-processing block surrounding the per-file
loop and the cover-image update throws (modelled at the update step, the
block's escape point), the post row created at step 4 is deleted — afterwards
no post carries the identifier it had reserved — and the response status is
500. -/
theorem creation_block_error_deletes (cfg : Config) (env : Env) (db : DB)
    (email : String) (req : CreateRequest) (user : User) (he : email ≠ "")
    (hval : ¬(req.title = "" ∨ req.description = "" ∨ req.category = "" ∨
      req.files = none ∨ req.files = some []))
    (hu : db.users.find? (fun u => u.email == email) = some user)
    (hthrow : env.updateThrows = true) :
    (POST cfg env db (some email) req).1.status = 500 ∧
    ∀ q ∈ (POST cfg env db (some email) req).2.posts, q.id ≠ db.nextPostId := by
  have hrun := POST_resolved cfg env db email req user he hval hu
  rw [hrun]
  simp only [createWithUser, hthrow, if_true]
  refine ⟨rfl, fun q hq => ?_⟩
  have hmem := List.of_mem_filter hq
  simpa using hmem

/-- The code's cover resolution, fed with the final URLs of the moved files,
yields either nothing or the recomputed final-location URL of one of the
request's files. -/
theorem resolveCover_shape (cfg : Config) (uid : String) (pid : Nat)
    (vis hint : String) (files moved : List FileData)
    (hsub : ∀ f ∈ moved, f ∈ files) :
    resolveCoverImage cfg uid pid vis hint files
        (moved.map (fun f => finalUrlOf cfg (generateFinalKey uid pid f.fileName vis)))
      = none ∨
    ∃ f ∈ files, resolveCoverImage cfg uid pid vis hint files
        (moved.map (fun f => finalUrlOf cfg (generateFinalKey uid pid f.fileName vis)))
      = some (finalUrlOf cfg (generateFinalKey uid pid f.fileName vis)) := by
  rw [resolveCover_eq_spec cfg uid pid vis hint files _ (fun u hu => by
    obtain ⟨f, hf2, hf3⟩ := List.mem_map.mp hu
    rw [← hf3]
    exact finalUrlOf_ne_empty _ _)]
  rw [coverImageSpec]
  by_cases hh : hint ≠ "" ∧ (findCoverFile hint files).isSome
  · rw [if_pos hh]
    obtain ⟨f, hf2⟩ := Option.isSome_iff_exists.mp hh.2
    right
    refine ⟨f, List.mem_of_find?_eq_some hf2, ?_⟩
    rw [hf2]
    rfl
  · rw [if_neg hh]
    cases moved with
    | nil => left; rfl
    | cons f fs =>
      right
      exact ⟨f, hsub f (List.mem_cons_self f fs), rfl⟩

/-- Concrete failing run: with the block throwing at the update step, no post
carries the reserved id and the status is 500. -/
theorem creation_block_error_deletes_wit :
    envThrow.updateThrows = true ∧
    (POST cfgEx envThrow dbEx (some "alice@example.com") reqEx).1.status = 500 ∧
    ∀ q ∈ (POST cfgEx envThrow dbEx (some "alice@example.com") reqEx).2.posts,
      q.id ≠ dbEx.nextPostId := by
  have h := creation_block_error_deletes cfgEx envThrow dbEx "alice@example.com"
    reqEx aliceC (by decide) (by decide) (by decide) rfl
  exact ⟨rfl, h.1, h.2⟩

/-- C4 (confirmed): on the success path, each file whose move succeeded gets
exactly one Image row referencing its final URL (the created rows are the
moved files' rows, in request order), the count of created Image rows equals
the count of successful moves, the response status is 200, and when exactly
one move fails the Image count is one less than the file count. -/
theorem creation_image_rows (cfg : Config) (env : Env) (db : DB) (email : String)
    (req : CreateRequest) (user : User) (files : List FileData) (he : email ≠ "")
    (ht : req.title ≠ "") (hd : req.description ≠ "") (hc : req.category ≠ "")
    (hf : req.files = some files) (hne : files ≠ [])
    (hu : db.users.find? (fun u => u.email == email) = some user)
    (hupd : env.updateThrows = false) :
    (POST cfg env db (some email) req).1.status = 200 ∧
    (POST cfg env db (some email) req).2.images =
      db.images ++
        (movedList env 0 files).map (fileImage cfg user.id db.nextPostId req.visibility) ∧
    (POST cfg env db (some email) req).2.images.length =
      db.images.length + movedCount env 0 files ∧
    (∀ j, j < files.length → env.moveOk j = false →
      (∀ i, i < files.length → i ≠ j → env.moveOk i = true) →
      (POST cfg env db (some email) req).2.images.length + 1 =
        db.images.length + files.length) := by
  have hval : ¬(req.title = "" ∨ req.description = "" ∨ req.category = "" ∨
      req.files = none ∨ req.files = some []) := by
    intro hcon
    rcases hcon with h | h | h | h | h
    · exact ht h
    · exact hd h
    · exact hc h
    · rw [hf] at h; exact Option.noConfusion h
    · rw [hf] at h; exact hne (Option.some.inj h)
  have hrun := POST_resolved cfg env db email req user he hval hu
  have hpf := processFiles_eq cfg env user.id db.nextPostId req.visibility files 0
  rw [hrun]
  simp only [createWithUser, hf, Option.getD_some, hupd, Bool.false_eq_true, if_false, hpf]
  refine ⟨by trivial, by trivial, ?_, ?_⟩
  · simp [List.length_append, List.length_map, movedList_length]
  · intro j hj hfail hrest
    have hone := movedCount_one_fail env files 0 j (Nat.zero_le _) (by omega) hfail
      (fun i h1 h2 hij => hrest i (by omega) hij)
    simp only [List.length_append, List.length_map, movedList_length]
    omega

/-- Concrete partially-failing run: the second of two moves fails, the status
is still 200 and one Image row (one less than the file count) was created. -/
theorem creation_image_rows_wit :
    (POST cfgEx envFailSnd dbEx (some "alice@example.com") reqEx).1.status = 200 ∧
    (POST cfgEx envFailSnd dbEx (some "alice@example.com") reqEx).2.images.length + 1 =
      dbEx.images.length + 2 := by
  have h := creation_image_rows cfgEx envFailSnd dbEx "alice@example.com" reqEx aliceC
    [fileA, fileB] (by decide) (by decide) (by decide) (by decide) rfl (by decide)
    (by decide) rfl
  refine ⟨h.1, ?_⟩
  have h4 := h.2.2.2 1 (by decide) (by decide) (by decide)
  simpa using h4

/-- C5 (confirmed): on the success path the finalized cover image equals the
specification's resolution rule: the recomputed final URL of the hinted file
when an explicit hint is supplied and matches a file of the original list,
otherwise the first successfully moved file's URL, or null when no file was
moved. -/
theorem creation_cover_resolution (cfg : Config) (env : Env) (db : DB) (email : String)
    (req : CreateRequest) (user : User) (files : List FileData) (he : email ≠ "")
    (ht : req.title ≠ "") (hd : req.description ≠ "") (hc : req.category ≠ "")
    (hf : req.files = some files) (hne : files ≠ [])
    (hu : db.users.find? (fun u => u.email == email) = some user)
    (hupd : env.updateThrows = false) :
    ∃ post imgs,
      (POST cfg env db (some email) req).1 = CreateResult.ok post imgs ∧
      post.coverImage = coverImageSpec cfg user.id db.nextPostId req.visibility
        req.coverImage files
        ((movedList env 0 files).map
          (fun f => finalUrlOf cfg (generateFinalKey user.id db.nextPostId f.fileName req.visibility))) := by
  have hval : ¬(req.title = "" ∨ req.description = "" ∨ req.category = "" ∨
      req.files = none ∨ req.files = some []) := by
    intro hcon
    rcases hcon with h | h | h | h | h
    · exact ht h
    · exact hd h
    · exact hc h
    · rw [hf] at h; exact Option.noConfusion h
    · rw [hf] at h; exact hne (Option.some.inj h)
  have hrun := POST_resolved cfg env db email req user he hval hu
  have hpf := processFiles_eq cfg env user.id db.nextPostId req.visibility files 0
  rw [hrun]
  simp only [createWithUser, hf, Option.getD_some, hupd, Bool.false_eq_true, if_false, hpf]
  refine ⟨_, _, rfl, ?_⟩
  exact resolveCover_eq_spec cfg user.id db.nextPostId req.visibility req.coverImage files _
    (fun u hu2 => by
      obtain ⟨f, hf2, hf3⟩ := List.mem_map.mp hu2
      rw [← hf3]
      exact finalUrlOf_ne_empty _ _)

/-- Concrete cover-image run: the hint mentions `b.png`, so the cover is the
recomputed final URL of the second file. -/
theorem creation_cover_resolution_wit :
    (∃ post imgs,
      (POST cfgEx envOk dbEx (some "alice@example.com") reqCoverEx).1
        = CreateResult.ok post imgs ∧
      post.coverImage = coverImageSpec cfgEx aliceC.id dbEx.nextPostId reqCoverEx.visibility
        reqCoverEx.coverImage [fileA, fileB]
        ((movedList envOk 0 [fileA, fileB]).map
          (fun f => finalUrlOf cfgEx
            (generateFinalKey aliceC.id dbEx.nextPostId f.fileName reqCoverEx.visibility)))) ∧
    coverImageSpec cfgEx aliceC.id dbEx.nextPostId reqCoverEx.visibility
        reqCoverEx.coverImage [fileA, fileB]
        ((movedList envOk 0 [fileA, fileB]).map
          (fun f => finalUrlOf cfgEx
            (generateFinalKey aliceC.id dbEx.nextPostId f.fileName reqCoverEx.visibility)))
      = some (finalUrlOf cfgEx
          (generateFinalKey aliceC.id dbEx.nextPostId fileB.fileName reqCoverEx.visibility)) := by
  refine ⟨creation_cover_resolution cfgEx envOk dbEx "alice@example.com" reqCoverEx aliceC
    [fileA, fileB] (by decide) (by decide) (by decide) (by decide) rfl (by decide)
    (by decide) rfl, ?_⟩
  decide

/-- C8 (confirmed): every creation request that finalizes a post (returns 200)
leaves it with a cover image that is either null or the recomputed
final-location URL of one of the request's files — never a temporary-storage
URL. -/
theorem creation_cover_not_temporary (cfg : Config) (env : Env) (db : DB) (email : String)
    (req : CreateRequest) (user : User) (files : List FileData) (he : email ≠ "")
    (ht : req.title ≠ "") (hd : req.description ≠ "") (hc : req.category ≠ "")
    (hf : req.files = some files) (hne : files ≠ [])
    (hu : db.users.find? (fun u => u.email == email) = some user)
    (hupd : env.updateThrows = false) :
    ∃ post imgs,
      (POST cfg env db (some email) req).1 = CreateResult.ok post imgs ∧
      (post.coverImage = none ∨
        ∃ f ∈ files, post.coverImage =
          some (finalUrlOf cfg
            (generateFinalKey user.id db.nextPostId f.fileName req.visibility))) := by
  have hval : ¬(req.title = "" ∨ req.description = "" ∨ req.category = "" ∨
      req.files = none ∨ req.files = some []) := by
    intro hcon
    rcases hcon with h | h | h | h | h
    · exact ht h
    · exact hd h
    · exact hc h
    · rw [hf] at h; exact Option.noConfusion h
    · rw [hf] at h; exact hne (Option.some.inj h)
  have hrun := POST_resolved cfg env db email req user he hval hu
  have hpf := processFiles_eq cfg env user.id db.nextPostId req.visibility files 0
  rw [hrun]
  simp only [createWithUser, hf, Option.getD_some, hupd, Bool.false_eq_true, if_false, hpf]
  refine ⟨_, _, rfl, ?_⟩
  exact resolveCover_shape cfg user.id db.nextPostId req.visibility req.coverImage files
    (movedList env 0 files) (movedList_subset env files 0)

/-- Concrete finalized post: with no hint and both moves succeeding, the cover
image is null or a final-location URL of one of the request's files. -/
theorem creation_cover_not_temporary_wit :
    ∃ post imgs,
      (POST cfgEx envOk dbEx (some "alice@example.com") reqEx).1 = CreateResult.ok post imgs ∧
      (post.coverImage = none ∨
        ∃ f ∈ [fileA, fileB], post.coverImage =
          some (finalUrlOf cfgEx
            (generateFinalKey aliceC.id dbEx.nextPostId f.fileName reqEx.visibility))) :=
  creation_cover_not_temporary cfgEx envOk dbEx "alice@example.com" reqEx aliceC
    [fileA, fileB] (by decide) (by decide) (by decide) (by decide) rfl (by decide)
    (by decide) rfl

end Memora.Creation
